import Mathlib

/-!
Verification development for the RestApiSimulator scenario/load engine.

The Python sources under app/core are shallowly embedded:
Python strings are Lean Str values; since several Lean String
primitives do not reduce in the kernel, the Python string operations used by
the code (split, replace, membership, rstrip, isdigit) are re-implemented over
the underlying character lists.  Parsed JSON response bodies are the JValue
inductive; Python None and JSON null are the single constructor JValue.null.
The HTTP transport and the regular-expression matcher are external effects and
enter as explicit oracles (an attempt-indexed HttpOutcome and an rmatch
function).  Sleeps and issued requests are collected into an Event trace so
that delay and retry behaviour is observable.  Wall-clock timestamps and the
async machinery carry no logic and are omitted.
-/

/-! ## Python string primitives re-implemented over character lists -/

/-- Character list underlying a Python string. -/
def chars (s : String) : List Char := s.data

/-- Rebuild a string from its character list. -/
def ofChars (cs : List Char) : String := String.mk cs

/-- Python split on a single dot, as used by field_path.split in
AssertionEngine.get_field_value: splitting the empty string yields one empty
part, and consecutive dots yield empty parts. -/
def splitOnDot : List Char → List (List Char)
  | [] => [[]]
  | c :: cs =>
    let rest := splitOnDot cs
    if c == '.' then [] :: rest
    else
      match rest with
      | [] => [[c]]
      | g :: gs => (c :: g) :: gs

/-- Fueled replace-all loop; the fuel is the source length plus one, which is
enough because the pattern is nonempty whenever the loop is entered. -/
def replaceLoop (pat rep : List Char) : Nat → List Char → List Char
  | 0, s => s
  | _ + 1, [] => []
  | fuel + 1, c :: cs =>
    if pat.isPrefixOf (c :: cs) then rep ++ replaceLoop pat rep fuel ((c :: cs).drop pat.length)
    else c :: replaceLoop pat rep fuel cs

/-- Python str.replace restricted to a nonempty pattern (the engine only ever
replaces template placeholder tokens, which contain braces and are nonempty);
an empty pattern is returned unchanged here. -/
def pyReplace (s pat rep : String) : String :=
  if pat.data.isEmpty then s
  else ofChars (replaceLoop pat.data rep.data (s.data.length + 1) s.data)

/-- Python substring membership: pat in s. -/
def containsSub (pat : List Char) : List Char → Bool
  | [] => pat.isEmpty
  | c :: cs => pat.isPrefixOf (c :: cs) || containsSub pat cs

/-- Start code points of the runs of Unicode Decimal_Number (Nd) characters;
every Nd run is ten consecutive code points carrying the decimal values zero
to nine, so a decimal digit is any code point inside one such run.  Data of
the Unicode character database used by the CPython interpreter. -/
def ndRunStarts : List Nat := [
  48, 1632, 1776, 1984, 2406, 2534, 2662, 2790,
  2918, 3046, 3174, 3302, 3430, 3558, 3664, 3792,
  3872, 4160, 4240, 6112, 6160, 6470, 6608, 6784,
  6800, 6992, 7088, 7232, 7248, 42528, 43216, 43264,
  43472, 43504, 43600, 44016, 65296, 66720, 68912, 69734,
  69872, 69942, 70096, 70384, 70736, 70864, 71248, 71360,
  71472, 71904, 72016, 72784, 73040, 73120, 92768, 92864,
  93008, 120782, 120792, 120802, 120812, 120822, 123200, 123632,
  125264, 130032]
/-- Inclusive code-point ranges of the characters with Numeric_Type=Digit
that are not decimal digits (superscripts, subscripts, circled digits and the
like): str.isdigit accepts them, int() rejects them.  Data of the Unicode
character database used by the CPython interpreter. -/
def digitOnlyRanges : List (Nat × Nat) := [
  (178, 179), (185, 185), (4969, 4977), (6618, 6618), (8304, 8304), (8308, 8313),
  (8320, 8329), (9312, 9320), (9332, 9340), (9352, 9360), (9450, 9450), (9461, 9469),
  (9471, 9471), (10102, 10110), (10112, 10120), (10122, 10130), (68160, 68163), (69216, 69224),
  (69714, 69722), (127232, 127242)]

/-- The decimal value of a Unicode decimal digit (Nd), none otherwise. -/
def pyDecimalVal (c : Char) : Option Nat :=
  (ndRunStarts.find? (fun s => decide (s ≤ c.toNat) && decide (c.toNat ≤ s + 9))).map
    (fun s => c.toNat - s)

/-- Python str.isdigit on one character: Numeric_Type Decimal or Digit. -/
def pyIsDigitChar (c : Char) : Bool :=
  (pyDecimalVal c).isSome
    || digitOnlyRanges.any (fun r => decide (r.1 ≤ c.toNat) && decide (c.toNat ≤ r.2))

/-- Python str.isdigit on the segments used as list indices: a nonempty
string of digit characters, decimal or not. -/
def isDigits (s : String) : Bool := !s.data.isEmpty && s.data.all pyIsDigitChar

/-- Python int() on an isdigit-true segment: it parses exactly when every
character is a decimal digit (so e.g. the Arabic-Indic digits index a list),
and raises ValueError on digit characters without a decimal value such as
superscript two.  CPython appends the repr of the offending literal to the
message, and recent CPython also limits the digit count of a conversion;
neither detail is modelled. -/
def pyIntOfDigits (s : String) : Except String Nat :=
  if s.data.all (fun c => (pyDecimalVal c).isSome) then
    .ok (s.data.foldl (fun n c => n * 10 + (pyDecimalVal c).getD 0) 0)
  else .error ("invalid literal for int() with base 10")

/-- Python str.rstrip with a slash argument: remove every trailing slash
character, as HttpClient.__init__ does to the configured base URL. -/
def rstripSlashes (s : String) : String :=
  ofChars ((s.data.reverse.dropWhile (fun c => c == '/')).reverse)

/-- True when the last character of the string is a slash. -/
def lastIsSlash (s : String) : Bool :=
  match s.data.reverse with
  | [] => false
  | c :: _ => c == '/'

/-! ## JSON data model -/

/-- Parsed JSON values as handled by the engine.  Python None (the parse of
JSON null) is JValue.null; response bodies that parse as text are JValue.str. -/
inductive JValue where
  | null
  | bool (b : Bool)
  | int (n : Int)
  | str (s : String)
  | arr (xs : List JValue)
  | obj (fields : List (String × JValue))

/-- Python dict.get on the association lists representing parsed JSON objects
(keys are unique in a parsed object); none when the key is missing. -/
def jlookup (fields : List (String × JValue)) (k : String) : Option JValue :=
  (fields.find? (fun p => p.1 == k)).map (fun p => p.2)

/-! ## FieldPath resolution (AssertionEngine.get_field_value) -/

/-- One loop iteration of get_field_value: select a child of the current node
by one path segment.  A mapping is indexed by key via dict.get.  A sequence
node first runs part.isdigit(): if false the loop returns None; if true the
code calls int(part), which raises ValueError on a digit segment without
decimal value, and otherwise indexes, out of range yielding None.  Every
node that is neither mapping nor sequence yields None.  An error value is a
raised, uncaught exception. -/
def fieldStep (current : JValue) (part : String) : Except String (Option JValue) :=
  match current with
  | .obj fields => .ok (jlookup fields part)
  | .arr xs =>
    if isDigits part then
      match pyIntOfDigits part with
      | .ok index => .ok (if index < xs.length then xs.get? index else none)
      | .error e => .error e
    else .ok none
  | _ => .ok none

/-- The segment-walking loop of get_field_value.  After each selection the
Python code checks current is None and returns None; since dict.get returns
the stored value, a stored JSON null is indistinguishable from a missing key
at this point, so a selected null collapses to absent.  A raise inside the
loop propagates out of the function. -/
def walkPath : JValue → List String → Except String (Option JValue)
  | current, [] => .ok (some current)
  | current, part :: rest =>
    match fieldStep current part with
    | .error e => .error e
    | .ok none => .ok none
    | .ok (some .null) => .ok none
    | .ok (some v) => walkPath v rest

/-- AssertionEngine.get_field_value.  The literal path status is special-cased
before splitting and never raises: a dict is probed for its status entry, a
bare integer (or a bool, which is an int in Python) is returned as is,
anything else yields none.  Every other path walks the split segments, where
list indexing can raise. -/
def get_field_value (data : JValue) (field_path : String) : Except String (Option JValue) :=
  if field_path = "status" then
    match data with
    | .obj fields =>
      match jlookup fields ("status") with
      | some .null => .ok none
      | r => .ok r
    | .int n => .ok (some (.int n))
    | .bool b => .ok (some (.bool b))
    | _ => .ok none
  else
    walkPath data ((splitOnDot (chars field_path)).map ofChars)

/-- Field resolution as consumed by the assertion and extraction call sites.
In the Python engine a ValueError escaping get_field_value is not handled at
these call sites: it propagates into the catch-all try of the step executor,
where the whole attempt errors exactly as a raised transport error does.  In
this model attempt-level raising is carried by the HttpOutcome oracle, so at
these call sites an escaping resolution error is collapsed to absent; the
raising behaviour itself is the subject of the get_field_value theorems. -/
def resolveStepField (data : JValue) (field_path : String) : Option JValue :=
  match get_field_value data field_path with
  | .ok v => v
  | .error _ => none

/-! ## Test status and assertion model (models/result.py, models/scenario.py) -/

/-- TestStatus in models/result.py. -/
inductive TestStatus where
  | success
  | failure
  | error
  | skipped
deriving DecidableEq

/-- AssertionOperator in models/scenario.py; the reserved words in and exists
are suffixed with Op. -/
inductive AssertionOperator where
  | eq
  | ne
  | gt
  | lt
  | gte
  | lte
  | contains
  | not_contains
  | inOp
  | notInOp
  | regex
  | existsOp
deriving DecidableEq

/-- The wire name of each operator (its value in the Python enum). -/
def opValue : AssertionOperator → String
  | .eq => "eq"
  | .ne => "ne"
  | .gt => "gt"
  | .lt => "lt"
  | .gte => "gte"
  | .lte => "lte"
  | .contains => "contains"
  | .not_contains => "not_contains"
  | .inOp => "in"
  | .notInOp => "not_in"
  | .regex => "regex"
  | .existsOp => "exists"

/-- Assertion in models/scenario.py; value defaults to None (JValue.null) and
message to None. -/
structure Assertion where
  field : String
  operator : AssertionOperator
  value : JValue := .null
  message : Option String := none

/-! ## Python value semantics used by the comparisons -/

mutual
/-- Python equality over parsed JSON values.  Python bool is a subclass of
int, so True equals 1 and False equals 0; lists compare elementwise and dicts
compare key-by-key ignoring order (keys of a parsed object are unique). -/
def pyEqV : JValue → JValue → Bool
  | .null, .null => true
  | .bool a, .bool b => a == b
  | .bool a, .int n => (if a then (1 : Int) else 0) == n
  | .int n, .bool b => n == (if b then (1 : Int) else 0)
  | .int a, .int b => a == b
  | .str a, .str b => a == b
  | .arr xs, .arr ys => pyEqVList xs ys
  | .obj xs, .obj ys => xs.length == ys.length && pyEqVFields xs ys
  | _, _ => false

def pyEqVList : List JValue → List JValue → Bool
  | [], [] => true
  | x :: xs, y :: ys => pyEqV x y && pyEqVList xs ys
  | _, _ => false

def pyEqVFields : List (String × JValue) → List (String × JValue) → Bool
  | [], _ => true
  | (k, v) :: xs, ys =>
    (match jlookup ys k with
     | none => false
     | some w => pyEqV v w) && pyEqVFields xs ys
end

/-- Python equality between a possibly absent actual value and an expected
value; an absent actual is Python None, which equals only None itself. -/
def pyEqA (actual : Option JValue) (expected : JValue) : Bool :=
  match actual with
  | none =>
    match expected with
    | .null => true
    | _ => false
  | some v => pyEqV v expected

/-- Numeric view of a Python operand: ints and bools order as integers. -/
def pyToInt : JValue → Option Int
  | .int n => some n
  | .bool b => some (if b then 1 else 0)
  | _ => none

/-- Python strict less-than on operands of an ordering assertion.  Numbers
(ints and bools) and strings are ordered; every other operand combination,
None included, raises TypeError in Python and is an error here.  Python also
orders lists elementwise, which the engine never exercises and which is
conservatively an error in this model. -/
def pyLtV (a b : Option JValue) : Except String Bool :=
  match a, b with
  | some x, some y =>
    (match pyToInt x, pyToInt y with
     | some m, some n => .ok (decide (m < n))
     | _, _ =>
       match x, y with
       | .str s, .str t => .ok (decide (s < t))
       | _, _ => .error ("unorderable operand types"))
  | _, _ => .error ("comparison not supported with NoneType")

/-- Python less-or-equal, with the same domain as pyLtV. -/
def pyLeV (a b : Option JValue) : Except String Bool :=
  match a, b with
  | some x, some y =>
    (match pyToInt x, pyToInt y with
     | some m, some n => .ok (decide (m ≤ n))
     | _, _ =>
       match x, y with
       | .str s, .str t => .ok (decide (s ≤ t))
       | _, _ => .error ("unorderable operand types"))
  | _, _ => .error ("comparison not supported with NoneType")

/-- Single-quote character, used by the Python repr of strings. -/
def pyQuote : String := String.singleton (Char.ofNat 39)

mutual
/-- Python repr of a parsed JSON value, used when containers are formatted
into assertion messages. -/
def pyRepr : JValue → String
  | .null => "None"
  | .bool true => "True"
  | .bool false => "False"
  | .int n => toString n
  | .str s => pyQuote ++ s ++ pyQuote
  | .arr xs => "[" ++ pyReprList xs ++ "]"
  | .obj fs => "\x7b" ++ pyReprFields fs ++ "\x7d"

def pyReprList : List JValue → String
  | [] => ""
  | [x] => pyRepr x
  | x :: xs => pyRepr x ++ ", " ++ pyReprList xs

def pyReprFields : List (String × JValue) → String
  | [] => ""
  | [(k, v)] => pyQuote ++ k ++ pyQuote ++ ": " ++ pyRepr v
  | (k, v) :: fs => pyQuote ++ k ++ pyQuote ++ ": " ++ pyRepr v ++ ", " ++ pyReprFields fs
end

/-- Python str of a parsed JSON value, as interpolated into f-strings and
substituted text: a string stays bare, every other value prints as its repr. -/
def pyStr : JValue → String
  | .str s => s
  | v => pyRepr v

/-- Python str of a possibly absent value (str(None) is None). -/
def pyStrA : Option JValue → String
  | none => "None"
  | some v => pyStr v

/-! ## AssertionEngine._compare -/

/-- AssertionEngine._compare.  The actual operand may be absent (Python None);
the expected operand is the assertion value.  A Bool result mirrors a normal
return, an error mirrors a raised exception, which validate_assertion
converts into a failed assertion.  The regular-expression matcher re.match is
external and is passed in as rmatch (pattern, then subject); patterns are
assumed well-formed. -/
def _compare (rmatch : String → String → Bool) (actual : Option JValue)
    (operator : AssertionOperator) (expected : JValue) : Except String Bool :=
  match operator with
  | .eq => .ok (pyEqA actual expected)
  | .ne => .ok (!pyEqA actual expected)
  | .gt => pyLtV (some expected) actual
  | .lt => pyLtV actual (some expected)
  | .gte => pyLeV (some expected) actual
  | .lte => pyLeV actual (some expected)
  | .contains =>
    match actual with
    | some (.str s) =>
      (match expected with
       | .str e => .ok (containsSub (chars e) (chars s))
       | _ => .error ("in <string> requires string as left operand"))
    | some (.arr xs) => .ok (xs.any (fun v => pyEqV v expected))
    | _ => .ok false
  | .not_contains =>
    match actual with
    | some (.str s) =>
      (match expected with
       | .str e => .ok (!containsSub (chars e) (chars s))
       | _ => .error ("in <string> requires string as left operand"))
    | some (.arr xs) => .ok (!xs.any (fun v => pyEqV v expected))
    | _ => .ok true
  | .inOp =>
    match expected with
    | .str e =>
      (match actual with
       | some (.str s) => .ok (containsSub (chars s) (chars e))
       | _ => .error ("in <string> requires string as left operand"))
    | .arr ys => .ok (ys.any (fun v => pyEqA actual v))
    | .obj fs =>
      (match actual with
       | some (.str s) => .ok (fs.any (fun p => p.1 == s))
       | some (.arr _) => .error ("unhashable type")
       | some (.obj _) => .error ("unhashable type")
       | _ => .ok false)
    | _ => .error ("argument of type is not iterable")
  | .notInOp =>
    match expected with
    | .str e =>
      (match actual with
       | some (.str s) => .ok (!containsSub (chars s) (chars e))
       | _ => .error ("in <string> requires string as left operand"))
    | .arr ys => .ok (!ys.any (fun v => pyEqA actual v))
    | .obj fs =>
      (match actual with
       | some (.str s) => .ok (!fs.any (fun p => p.1 == s))
       | some (.arr _) => .error ("unhashable type")
       | some (.obj _) => .error ("unhashable type")
       | _ => .ok true)
    | _ => .error ("argument of type is not iterable")
  | .regex =>
    match actual, expected with
    | some (.str s), .str pat => .ok (rmatch pat s)
    | _, _ => .ok false
  | .existsOp => .ok actual.isSome

/-! ## AssertionEngine.validate_assertion and validate_all -/

/-- One row of the details list built by validate_all. -/
structure AssertionDetail where
  field : String
  operator : String
  expected : JValue
  passed : Bool
  message : String

/-- AssertionEngine.validate_assertion: wrap status and body, resolve the
field, compare, and convert a raised comparison into a failed assertion with
the exception text.  A custom message is used only when it is truthy, i.e.
nonempty. -/
def validate_assertion (rmatch : String → String → Bool) (assertion : Assertion)
    (status_code : Int) (response_body : JValue) : Bool × String :=
  let data := JValue.obj [(("status"), JValue.int status_code), (("body"), response_body)]
  let actual_value := resolveStepField data assertion.field
  let expected_value := assertion.value
  match _compare rmatch actual_value assertion.operator expected_value with
  | .ok passed =>
    if passed then
      (true, "✓ " ++ assertion.field ++ " " ++ opValue assertion.operator ++ " " ++ pyStr expected_value)
    else
      (false,
        match assertion.message with
        | some m =>
          if m = "" then
            "✗ " ++ assertion.field ++ ": expected " ++ opValue assertion.operator ++ " "
              ++ pyStr expected_value ++ ", got " ++ pyStrA actual_value
          else m
        | none =>
          "✗ " ++ assertion.field ++ ": expected " ++ opValue assertion.operator ++ " "
            ++ pyStr expected_value ++ ", got " ++ pyStrA actual_value)
  | .error e => (false, "✗ Assertion error: " ++ e)

/-- AssertionEngine.validate_all: fold over the assertions accumulating the
passed count, the failed count and the per-assertion detail rows in order. -/
def validate_all (rmatch : String → String → Bool) (assertions : List Assertion)
    (status_code : Int) (response_body : JValue) : Nat × Nat × List AssertionDetail :=
  assertions.foldl
    (fun acc assertion =>
      let pm := validate_assertion rmatch assertion status_code response_body
      ((if pm.1 then acc.1 + 1 else acc.1),
       (if pm.1 then acc.2.1 else acc.2.1 + 1),
       acc.2.2 ++ [{ field := assertion.field, operator := opValue assertion.operator,
                     expected := assertion.value, passed := pm.1, message := pm.2 }]))
    (0, 0, [])

/-! ## Variable substitution (HttpClient._substitute_*) -/

/-- HttpClient._substitute_variables: for each binding in the context, if the
placeholder token (the variable name wrapped in double braces) occurs in the
text, replace every occurrence by the printed form of the value. -/
def _substitute_variables (text : String) (context : List (String × JValue)) : String :=
  context.foldl
    (fun result kv =>
      let placeholder := "\x7b\x7b" ++ kv.1 ++ "\x7d\x7d"
      if containsSub (chars placeholder) (chars result) then pyReplace result placeholder (pyStr kv.2)
      else result)
    text

mutual
/-- HttpClient._substitute_value: strings are templated, dicts value-by-value,
lists element-by-element, other scalars are returned as is. -/
def _substitute_value (value : JValue) (context : List (String × JValue)) : JValue :=
  match value with
  | .str s => .str (_substitute_variables s context)
  | .obj fs => .obj (_substitute_fields fs context)
  | .arr xs => .arr (_substitute_list xs context)
  | v => v

/-- HttpClient._substitute_dict over the field list of an object: keys are
untouched, values are substituted. -/
def _substitute_fields (fs : List (String × JValue)) (context : List (String × JValue)) :
    List (String × JValue) :=
  match fs with
  | [] => []
  | (k, v) :: rest => (k, _substitute_value v context) :: _substitute_fields rest context

/-- Elementwise substitution in a list value. -/
def _substitute_list (xs : List JValue) (context : List (String × JValue)) : List JValue :=
  match xs with
  | [] => []
  | x :: rest => _substitute_value x context :: _substitute_list rest context
end

/-- Substitution over an optional string-to-string mapping such as the step
headers; values are templated as strings. -/
def _substitute_str_dict (d : List (String × String)) (context : List (String × JValue)) :
    List (String × String) :=
  d.map (fun kv => (kv.1, _substitute_variables kv.2 context))

/-! ## Host configuration and HTTP client (models/config.py, http_client.py) -/

/-- HostConfig in models/config.py (the fields the client consumes). -/
structure HostConfig where
  base_url : String
  timeout : Int := 30
  headers : List (String × String) := []
  verify_ssl : Bool := true

/-- The state HttpClient.__init__ derives from a host configuration. -/
structure HttpClient where
  base_url : String
  default_headers : List (String × String)
  timeout : Int
  verify_ssl : Bool

/-- HttpClient.__init__: the configured base URL is rstripped of every
trailing slash, and defaults are copied over. -/
def HttpClient.ofConfig (host_config : HostConfig) : HttpClient :=
  { base_url := rstripSlashes host_config.base_url,
    default_headers := host_config.headers,
    timeout := host_config.timeout,
    verify_ssl := host_config.verify_ssl }

/-- Observable actions of an attempt: a sleep (pre-delay, post-delay or the
fixed retry backoff) or an issued HTTP request with the URL that goes on the
wire. -/
inductive Event where
  | sleep (seconds : ℚ)
  | request (method : String) (url : String)
deriving DecidableEq

/-- Outcome of one attempted HTTP exchange, supplied by the environment: the
server answered (status code, headers, parsed body, elapsed milliseconds), or
the transport or timeout machinery raised with the given message. -/
inductive HttpOutcome where
  | ok (status_code : Int) (headers : List (String × String)) (body : JValue) (time_ms : ℚ)
  | exn (message : String)

/-- A scenario step (models/scenario.py).  delay fields default to 0 seconds,
retry to 0 additional attempts, skip_on_failure to false. -/
structure ScenarioStep where
  name : String
  method : String
  path : String
  headers : Option (List (String × String)) := none
  query_params : Option (List (String × JValue)) := none
  body : Option JValue := none
  timeout : Option Int := none
  delay_before : ℚ := 0
  delay_after : ℚ := 0
  assertions : List Assertion := []
  extract : Option (List (String × String)) := none
  skip_on_failure : Bool := false
  retry : Nat := 0

/-- HttpClient.execute_request: build the URL by concatenating the stripped
base URL with the path, merge headers, and perform the exchange whose result
the environment dictates; a raise propagates as an error. The merged headers,
query parameters, body and effective timeout are consumed by the transport
and are not otherwise observable. -/
def execute_request (client : HttpClient) (method : String) (path : String)
    (headers : Option (List (String × String))) (outcome : HttpOutcome) :
    Except String (Int × List (String × String) × JValue × ℚ) × List Event :=
  let url := client.base_url ++ path
  let _req_headers :=
    match headers with
    | none => client.default_headers
    | some hs => hs.foldl (fun acc kv => acc ++ [kv]) client.default_headers
  match outcome with
  | .ok sc hs b t => (.ok (sc, hs, b, t), [Event.request method url])
  | .exn msg => (.error msg, [Event.request method url])

/-- HttpClient.execute_step: sleep the pre-delay when positive, substitute
variables into path, headers, query parameters and body, issue the request,
then sleep the post-delay when positive.  A raise inside execute_request
propagates before the post-delay line is reached, so an erroring attempt
performs no post-delay sleep. -/
def execute_step (client : HttpClient) (step : ScenarioStep)
    (vars : List (String × JValue)) (outcome : HttpOutcome) :
    Except String (Int × List (String × String) × JValue × ℚ) × List Event :=
  let preEv := if 0 < step.delay_before then [Event.sleep step.delay_before] else []
  let path := _substitute_variables step.path vars
  let headers := step.headers.map (fun hs => _substitute_str_dict hs vars)
  let _query_params := step.query_params.map (fun qp => _substitute_fields qp vars)
  let _body := step.body.map (fun b => _substitute_value b vars)
  let res := execute_request client step.method path headers outcome
  match res.1 with
  | .error e => (.error e, preEv ++ res.2)
  | .ok r =>
    let postEv := if 0 < step.delay_after then [Event.sleep step.delay_after] else []
    (.ok r, preEv ++ res.2 ++ postEv)

/-! ## Step results and the scenario engine (models/result.py, scenario_engine.py) -/

/-- StepResult in models/result.py (wall-clock timestamp omitted). -/
structure StepResult where
  step_name : String
  method : String
  url : String
  status : TestStatus
  status_code : Option Int := none
  response_time_ms : ℚ
  request_headers : List (String × String) := []
  request_body : Option JValue := none
  response_headers : Option (List (String × String)) := none
  response_body : Option JValue := none
  error_message : Option String := none
  assertions_passed : Nat := 0
  assertions_failed : Nat := 0
  assertion_details : List AssertionDetail := []
  extracted_variables : List (String × JValue) := []

/-- Python dict assignment d[k] = v on an association list: overwrite the
value of an existing key in place, otherwise append the new binding. -/
def updateAssoc (m : List (String × JValue)) (k : String) (v : JValue) :
    List (String × JValue) :=
  if m.any (fun p => p.1 == k) then m.map (fun p => if p.1 == k then (k, v) else p)
  else m ++ [(k, v)]

/-- Python dict.update: fold the assignments of the second mapping, in order,
into the first. -/
def updateAll (m kvs : List (String × JValue)) : List (String × JValue) :=
  kvs.foldl (fun acc p => updateAssoc acc p.1 p.2) m

/-- The extraction block of ScenarioEngine._execute_step: for each entry of
the extract mapping, resolve its field path against a wrapper holding only
the body; a value that resolves (is not None) is bound, anything else binds
nothing. -/
def extractStepVars (extract : Option (List (String × String))) (response_body : JValue) :
    List (String × JValue) :=
  match extract with
  | none => []
  | some items =>
    items.foldl
      (fun acc kv =>
        match resolveStepField (JValue.obj [(("body"), response_body)]) kv.2 with
        | some v => updateAssoc acc kv.1 v
        | none => acc)
      []

/-- The StepResult built by ScenarioEngine._execute_step when the request
returned: the logged URL concatenates the base URL with the raw step path,
assertions are validated when present, variables are extracted from the body,
and the status is failure exactly when some assertion failed.  Note the URL
uses step.path before substitution while the issued request used the
substituted path. -/
def okStepResult (rmatch : String → String → Bool) (client : HttpClient)
    (step : ScenarioStep) (status_code : Int)
    (response_headers : List (String × String)) (response_body : JValue)
    (response_time_ms : ℚ) : StepResult :=
  let url := client.base_url ++ step.path
  let pfd :=
    match step.assertions with
    | [] => ((0 : Nat), (0 : Nat), ([] : List AssertionDetail))
    | _ => validate_all rmatch step.assertions status_code response_body
  let extracted_vars := extractStepVars step.extract response_body
  let status := if 0 < pfd.2.1 then TestStatus.failure else TestStatus.success
  { step_name := step.name, method := step.method, url := url, status := status,
    status_code := some status_code, response_time_ms := response_time_ms,
    request_headers := step.headers.getD [], request_body := step.body,
    response_headers := some response_headers, response_body := some response_body,
    assertions_passed := pfd.1, assertions_failed := pfd.2.1,
    assertion_details := pfd.2.2, extracted_variables := extracted_vars }

/-- The StepResult built by ScenarioEngine._execute_step when every attempt
raised: status error, zero response time, the last raised message recorded,
and every other field left at its default (in particular no extracted
variables and no response body). -/
def errorStepResult (client : HttpClient) (step : ScenarioStep)
    (last_error : Option String) : StepResult :=
  { step_name := step.name, method := step.method,
    url := client.base_url ++ step.path, status := TestStatus.error,
    response_time_ms := 0, request_headers := step.headers.getD [],
    request_body := step.body, error_message := last_error }

/-- The attempt loop of ScenarioEngine._execute_step, structurally recursive
on the number of attempts still allowed.  A returned response ends the loop
with a success-or-failure StepResult at once; a raise records the message
and, when another attempt remains, sleeps the fixed one-second backoff before
retrying; when no attempt remains the error StepResult is produced.  The
trace collects the events of every attempt in order. -/
def _execute_step_loop (rmatch : String → String → Bool) (client : HttpClient)
    (step : ScenarioStep) (vars : List (String × JValue)) (http : Nat → HttpOutcome) :
    Nat → Nat → Option String → StepResult × List Event
  | _, 0, last_error => (errorStepResult client step last_error, [])
  | attempt, remaining + 1, _ =>
    let res := execute_step client step vars (http attempt)
    match res.1 with
    | .ok (sc, rh, rb, rt) => (okStepResult rmatch client step sc rh rb rt, res.2)
    | .error e =>
      let rest := _execute_step_loop rmatch client step vars http (attempt + 1) remaining (some e)
      if 0 < remaining then (rest.1, res.2 ++ [Event.sleep 1] ++ rest.2)
      else (rest.1, res.2 ++ rest.2)

/-- ScenarioEngine._execute_step: run the attempt loop with retry + 1 allowed
attempts, starting at attempt zero with no recorded error. -/
def _execute_step (rmatch : String → String → Bool) (client : HttpClient)
    (step : ScenarioStep) (vars : List (String × JValue)) (http : Nat → HttpOutcome) :
    StepResult × List Event :=
  _execute_step_loop rmatch client step vars http 0 (step.retry + 1) none

/-- A scenario (models/scenario.py); the Python field variables is vars here
because that word is reserved in Lean. -/
structure Scenario where
  name : String
  host : Option String := none
  vars : Option (List (String × JValue)) := none
  steps : List ScenarioStep
  tags : List String := []

/-- The step loop of ScenarioEngine.execute_scenario.  Each executed step has
its extracted variables merged into the context whenever the extraction map
is nonempty, regardless of the step status; a failure or error step stops
the loop unless its skip_on_failure flag is set, and overwrites the running
scenario status.  Returns the recorded StepResults, the final variable map
and the final scenario status. -/
def runSteps (rmatch : String → String → Bool) (client : HttpClient)
    (http : Nat → Nat → HttpOutcome) :
    List ScenarioStep → Nat → List (String × JValue) → TestStatus →
    List StepResult × List (String × JValue) × TestStatus
  | [], _, vars, scenario_status => ([], vars, scenario_status)
  | step :: rest, idx, vars, scenario_status =>
    let sr := (_execute_step rmatch client step vars (http idx)).1
    let vars2 := if sr.extracted_variables.isEmpty then vars
                 else updateAll vars sr.extracted_variables
    match sr.status with
    | .failure =>
      if step.skip_on_failure then
        let r := runSteps rmatch client http rest (idx + 1) vars2 TestStatus.failure
        (sr :: r.1, r.2)
      else ([sr], vars2, TestStatus.failure)
    | .error =>
      if step.skip_on_failure then
        let r := runSteps rmatch client http rest (idx + 1) vars2 TestStatus.error
        (sr :: r.1, r.2)
      else ([sr], vars2, TestStatus.error)
    | _ =>
      let r := runSteps rmatch client http rest (idx + 1) vars2 scenario_status
      (sr :: r.1, r.2)

/-- ScenarioResult in models/result.py (timestamps and duration omitted); the
Python field variables is vars here because that word is reserved in Lean. -/
structure ScenarioResult where
  scenario_name : String
  status : TestStatus
  steps : List StepResult
  vars : List (String × JValue)
  total_requests : Nat
  successful_requests : Nat
  failed_requests : Nat
  error_requests : Nat

/-- ScenarioEngine.execute_scenario: start from a copy of the scenario
variables, run the steps, and aggregate the counts over the recorded
StepResults.  The oracle http gives the outcome of attempt a of step i as
http i a. -/
def execute_scenario (rmatch : String → String → Bool) (client : HttpClient)
    (scenario : Scenario) (http : Nat → Nat → HttpOutcome) : ScenarioResult :=
  let r := runSteps rmatch client http scenario.steps 0 (scenario.vars.getD []) TestStatus.success
  { scenario_name := scenario.name, status := r.2.2, steps := r.1, vars := r.2.1,
    total_requests := r.1.length,
    successful_requests := r.1.countP (fun s => decide (s.status = TestStatus.success)),
    failed_requests := r.1.countP (fun s => decide (s.status = TestStatus.failure)),
    error_requests := r.1.countP (fun s => decide (s.status = TestStatus.error)) }

/-! ## Load test metrics (load_test_engine.py) -/

/-- LoadTestMetrics in models/result.py (timestamp omitted). -/
structure LoadTestMetrics where
  elapsed_seconds : ℚ
  total_requests : Nat
  successful_requests : Nat
  failed_requests : Nat
  error_requests : Nat
  current_tps : ℚ
  avg_response_time_ms : ℚ
  min_response_time_ms : ℚ
  max_response_time_ms : ℚ
  p50_response_time_ms : ℚ
  p95_response_time_ms : ℚ
  p99_response_time_ms : ℚ
  active_connections : Nat

/-- Python min over a nonempty list (zero on the guarded-out empty list). -/
def listMin : List ℚ → ℚ
  | [] => 0
  | x :: xs => xs.foldl min x

/-- Python max over a nonempty list (zero on the guarded-out empty list). -/
def listMax : List ℚ → ℚ
  | [] => 0
  | x :: xs => xs.foldl max x

/-- Sum of a list of rationals. -/
def listSum (l : List ℚ) : ℚ := l.foldl (fun a b => a + b) 0

/-- statistics.median on an already sorted list: the middle element for odd
length, the mean of the two middle elements for even length. -/
def median (s : List ℚ) : ℚ :=
  let n := s.length
  if n % 2 = 1 then s.getD (n / 2) 0
  else (s.getD (n / 2 - 1) 0 + s.getD (n / 2) 0) / 2

/-- The response-time sort performed by the metrics snapshot. -/
def sortTimes (response_times : List ℚ) : List ℚ :=
  List.insertionSort (fun a b => a ≤ b) response_times

/-- LoadTestEngine._calculate_current_metrics.  TPS is total over elapsed
when time has passed.  With no accumulated response times every time statistic
is zero; otherwise the times are sorted and the percentile indices are the
floors of 0.95 and 0.99 times the length (exact rational arithmetic here,
where CPython floors the IEEE double products; the two agree on every
realistic array length), clamped to the maximum when out of range. -/
def _calculate_current_metrics (elapsed : ℚ) (total successful failed errors active : Nat)
    (response_times : List ℚ) : LoadTestMetrics :=
  let current_tps := if 0 < elapsed then (total : ℚ) / elapsed else 0
  if response_times.isEmpty then
    { elapsed_seconds := elapsed, total_requests := total,
      successful_requests := successful, failed_requests := failed,
      error_requests := errors, current_tps := current_tps,
      avg_response_time_ms := 0, min_response_time_ms := 0,
      max_response_time_ms := 0, p50_response_time_ms := 0,
      p95_response_time_ms := 0, p99_response_time_ms := 0,
      active_connections := active }
  else
    let sorted_times := sortTimes response_times
    let avg_time := listSum sorted_times / (sorted_times.length : ℚ)
    let min_time := listMin sorted_times
    let max_time := listMax sorted_times
    let p50 := median sorted_times
    let p95_idx := sorted_times.length * 95 / 100
    let p99_idx := sorted_times.length * 99 / 100
    let p95 := if p95_idx < sorted_times.length then sorted_times.getD p95_idx 0 else max_time
    let p99 := if p99_idx < sorted_times.length then sorted_times.getD p99_idx 0 else max_time
    { elapsed_seconds := elapsed, total_requests := total,
      successful_requests := successful, failed_requests := failed,
      error_requests := errors, current_tps := current_tps,
      avg_response_time_ms := avg_time, min_response_time_ms := min_time,
      max_response_time_ms := max_time, p50_response_time_ms := p50,
      p95_response_time_ms := p95, p99_response_time_ms := p99,
      active_connections := active }

/-! ## Derived notions used by the specification statements -/

/-- Number of issued requests in a trace, i.e. attempts actually made. -/
def countRequests (evs : List Event) : Nat :=
  evs.countP (fun e => match e with | .request _ _ => true | _ => false)

/-- Number of occurrences of one event in a trace. -/
def countEv (e : Event) (evs : List Event) : Nat :=
  evs.countP (fun x => decide (x = e))

/-- How one recorded step updates the running scenario status in
execute_scenario: failure and error overwrite it, anything else keeps it. -/
def statusCombine (st s : TestStatus) : TestStatus :=
  match s with
  | .failure => .failure
  | .error => .error
  | _ => st

/-- The aggregate-status rule exactly as the specification words it: success
iff every non-skipped step succeeded; failure whenever some step failed and
none errored; otherwise error. -/
def specAggregateRule (r : ScenarioResult) : Prop :=
  (r.status = TestStatus.success ↔
    ∀ s ∈ r.steps, s.status ≠ TestStatus.skipped → s.status = TestStatus.success)
  ∧ ((∃ s ∈ r.steps, s.status = TestStatus.failure) ∧
      (∀ s ∈ r.steps, s.status ≠ TestStatus.error) → r.status = TestStatus.failure)
  ∧ (¬ (∀ s ∈ r.steps, s.status ≠ TestStatus.skipped → s.status = TestStatus.success) ∧
     ¬ ((∃ s ∈ r.steps, s.status = TestStatus.failure) ∧
        (∀ s ∈ r.steps, s.status ≠ TestStatus.error)) → r.status = TestStatus.error)

/-- Modelled from the spec: the URL join rule as the specification words it,
stripping exactly one trailing slash from the base URL before concatenating
the path.  Stated only to be compared with the implemented join, which
rstrips every trailing slash. -/
def specJoinUrl (base path : String) : String :=
  (if lastIsSlash base then ofChars base.data.dropLast else base) ++ path

/-! ## Concrete fixtures for witnesses and counterexamples -/

/-- A matcher oracle for concrete runs; no regex assertion below exercises it. -/
def rmatch0 : String → String → Bool := fun _ _ => false

/-- A client over a slash-free base URL. -/
def client0 : HttpClient := HttpClient.ofConfig { base_url := "http://h" }

/-- A step asserting status 200 and extracting body.token. -/
def c1Step : ScenarioStep :=
  { name := "s1", method := "GET", path := "/a",
    assertions := [{ field := "status", operator := .eq, value := .int 200 }],
    extract := some [(("token"), ("body.token"))] }

/-- The server answers 500 with a body carrying a token. -/
def c1Http : Nat → Nat → HttpOutcome :=
  fun _ _ => .ok 500 [] (.obj [(("token"), .str ("abc"))]) 5

/-- Scenario run in which the only step fails its assertion yet extracts. -/
def c1Result : ScenarioResult :=
  execute_scenario rmatch0 client0 { name := "c1", steps := [c1Step] } c1Http

/-- A step with no assertions that will error, marked skip_on_failure. -/
def c2Step1 : ScenarioStep :=
  { name := "s1", method := "GET", path := "/a", skip_on_failure := true }

/-- A step asserting status 200, which the run below fails. -/
def c2Step2 : ScenarioStep :=
  { name := "s2", method := "GET", path := "/b",
    assertions := [{ field := "status", operator := .eq, value := .int 200 }] }

/-- The first step raises, the second gets a 500 answer. -/
def c2Http : Nat → Nat → HttpOutcome :=
  fun i _ => if i = 0 then .exn ("boom") else .ok 500 [] .null 1

/-- Scenario run recording an error step and then a failure step. -/
def c2Result : ScenarioResult :=
  execute_scenario rmatch0 client0 { name := "c2", steps := [c2Step1, c2Step2] } c2Http

/-- A minimal always-succeeding step. -/
def c2wStep : ScenarioStep := { name := "w", method := "GET", path := "/a" }

/-- The server always answers 200. -/
def c2wHttp : Nat → Nat → HttpOutcome := fun _ _ => .ok 200 [] .null 1

/-- A step whose path contains a placeholder token for the variable id. -/
def c7Step : ScenarioStep := { name := "s", method := "GET", path := "/u/\x7b\x7bid\x7d\x7d" }

/-- Execution of the placeholder step with id bound to 7 and a 200 answer. -/
def c7Out : StepResult × List Event :=
  _execute_step rmatch0 client0 c7Step [(("id"), JValue.int 7)] (fun _ => .ok 200 [] .null 1)

/-- A step with a two-second pre-delay and a three-second post-delay. -/
def c8Step : ScenarioStep :=
  { name := "s", method := "GET", path := "/a", delay_before := 2, delay_after := 3 }

/-- Execution of the delayed step whose one attempt raises. -/
def c8Out : StepResult × List Event :=
  _execute_step rmatch0 client0 c8Step [] (fun _ => .exn ("t"))

/-! ## C4 and C10: field-path resolution -/

/-- C4 (corrected): field-path resolution is not total.  A missing mapping
key, an out-of-range decimal index, a non-digit segment applied to a
sequence, and a non-container interior node each yield absent, and both an
absent selection and a raise propagate to the final result; but a sequence
node met by a segment that passes str.isdigit while having no decimal value
(a superscript or similar digit character) makes int() raise ValueError,
which escapes get_field_value, and a segment of non-ASCII decimal digits
genuinely indexes the sequence. -/
theorem C4_field_path_cases :
    (∀ (fields : List (String × JValue)) (part : String) (rest : List String),
      jlookup fields part = none → walkPath (JValue.obj fields) (part :: rest) = Except.ok none)
  ∧ (∀ (xs : List JValue) (part : String) (rest : List String) (n : Nat),
      isDigits part = true → pyIntOfDigits part = Except.ok n → xs.length ≤ n →
      walkPath (JValue.arr xs) (part :: rest) = Except.ok none)
  ∧ (∀ (xs : List JValue) (part : String) (rest : List String),
      isDigits part = false → walkPath (JValue.arr xs) (part :: rest) = Except.ok none)
  ∧ (∀ (b : Bool) (n : Int) (s : String) (part : String) (rest : List String),
      walkPath JValue.null (part :: rest) = Except.ok none
      ∧ walkPath (JValue.bool b) (part :: rest) = Except.ok none
      ∧ walkPath (JValue.int n) (part :: rest) = Except.ok none
      ∧ walkPath (JValue.str s) (part :: rest) = Except.ok none)
  ∧ (∀ (current : JValue) (part : String) (rest : List String),
      fieldStep current part = Except.ok none → walkPath current (part :: rest) = Except.ok none)
  ∧ (∀ (current : JValue) (part : String) (rest : List String) (e : String),
      fieldStep current part = Except.error e → walkPath current (part :: rest) = Except.error e)
  ∧ (∀ (xs : List JValue) (part : String) (e : String),
      isDigits part = true → pyIntOfDigits part = Except.error e →
      fieldStep (JValue.arr xs) part = Except.error e)
  ∧ (∀ (xs : List JValue) (part : String) (n : Nat),
      isDigits part = true → pyIntOfDigits part = Except.ok n → n < xs.length →
      fieldStep (JValue.arr xs) part = Except.ok (xs.get? n)) := by
  refine ⟨?_, ?_, ?_, ?_, ?_, ?_, ?_, ?_⟩
  · intro fields part rest h
    simp [walkPath, fieldStep, h]
  · intro xs part rest n h1 h2 h3
    simp [walkPath, fieldStep, h1, h2, Nat.not_lt.mpr h3]
  · intro xs part rest h
    simp [walkPath, fieldStep, h]
  · intro b n s part rest
    exact ⟨rfl, rfl, rfl, rfl⟩
  · intro current part rest h
    simp [walkPath, h]
  · intro current part rest e h
    simp [walkPath, h]
  · intro xs part e h1 h2
    simp [fieldStep, h1, h2]
  · intro xs part n h1 h2 h3
    simp [fieldStep, h1, h2, h3]

/-- C4 counterexample: the superscript-two segment passes the isdigit guard
yet is no int literal, so resolving it against a list raises ValueError
instead of yielding absent; and an Arabic-Indic digit segment indexes the
list, here selecting element three. -/
theorem C4_counterexample :
    isDigits ("²") = true
    ∧ pyIntOfDigits ("²") = Except.error ("invalid literal for int() with base 10")
    ∧ get_field_value (JValue.obj [(("body"), JValue.arr [JValue.int 1])]) ("body.²")
        = Except.error ("invalid literal for int() with base 10")
    ∧ get_field_value
          (JValue.obj [(("body"),
            JValue.arr [JValue.int 5, JValue.int 6, JValue.int 7, JValue.int 8])]) ("body.٣")
        = Except.ok (some (JValue.int 8)) := by
  exact ⟨rfl, rfl, rfl, rfl⟩

/-- C4 witness: a missing key, an out-of-range index and a raising segment on
concrete trees. -/
theorem C4_witness :
    walkPath (JValue.obj [(("a"), JValue.int 1)]) [("b")] = Except.ok none
    ∧ walkPath (JValue.arr [JValue.int 9]) [("5"), ("x")] = Except.ok none
    ∧ fieldStep (JValue.arr [JValue.int 9]) ("²")
        = Except.error ("invalid literal for int() with base 10") :=
  ⟨C4_field_path_cases.1 [(("a"), JValue.int 1)] ("b") [] rfl,
   C4_field_path_cases.2.1 [JValue.int 9] ("5") [("x")] 5 rfl rfl (by decide),
   C4_field_path_cases.2.2.2.2.2.2.1 [JValue.int 9] ("²")
     ("invalid literal for int() with base 10") rfl rfl⟩

/-- C10: a stored JSON null is conflated with a missing node: selecting a
field whose value is null makes the resolution absent, an exists assertion on
such a field is reported failed, and an extraction whose path resolves to
null binds no variable. -/
theorem C10_null_is_absent :
    (∀ (current : JValue) (part : String) (rest : List String),
      fieldStep current part = Except.ok (some JValue.null) →
      walkPath current (part :: rest) = Except.ok none)
  ∧ (∀ (rmatch : String → String → Bool) (f : String) (status_code : Int)
       (response_body : JValue) (value : JValue) (message : Option String),
      get_field_value (JValue.obj [(("status"), JValue.int status_code), (("body"), response_body)]) f
        = Except.ok none →
      (validate_assertion rmatch
          { field := f, operator := AssertionOperator.existsOp, value := value, message := message }
          status_code response_body).1 = false)
  ∧ (∀ (var_name field_path : String) (response_body : JValue),
      get_field_value (JValue.obj [(("body"), response_body)]) field_path = Except.ok none →
      extractStepVars (some [(var_name, field_path)]) response_body = []) := by
  refine ⟨?_, ?_, ?_⟩
  · intro current part rest h
    simp [walkPath, h]
  · intro rmatch f status_code response_body value message h
    simp [validate_assertion, resolveStepField, h, _compare]
  · intro var_name field_path response_body h
    simp [extractStepVars, resolveStepField, h]

/-- C10 witness: a concrete body whose user field is null. -/
theorem C10_witness :
    walkPath (JValue.obj [(("user"), JValue.null)]) [("user")] = Except.ok none
    ∧ extractStepVars (some [(("u"), ("body.user"))]) (JValue.obj [(("user"), JValue.null)]) = [] :=
  ⟨C10_null_is_absent.1 (JValue.obj [(("user"), JValue.null)]) ("user") [] rfl,
   C10_null_is_absent.2.2 ("u") ("body.user") (JValue.obj [(("user"), JValue.null)]) rfl⟩

/-! ## C9: base URL and path join -/

/-- Dropping leading slashes leaves a list that does not start with a slash. -/
theorem dropSlash_head_not_slash (l : List Char) :
    (match l.dropWhile (fun c => c == '/') with
     | [] => false
     | c :: _ => c == '/') = false := by
  induction l with
  | nil => rfl
  | cons c cs ih =>
    by_cases h : (c == '/') = true
    · simpa [List.dropWhile_cons, h] using ih
    · simp [List.dropWhile_cons, h]

/-- The slashes taken from the front of a list form a replicate of slashes. -/
theorem takeSlash_replicate (l : List Char) :
    l.takeWhile (fun c => c == '/') =
      List.replicate (l.takeWhile (fun c => c == '/')).length '/' := by
  induction l with
  | nil => rfl
  | cons c cs ih =>
    by_cases h : (c == '/') = true
    · have hc : c = '/' := by simpa using h
      subst hc
      simp [List.takeWhile_cons, h, List.replicate_succ]
      exact ih
    · simp [List.takeWhile_cons, h]

/-- Splitting a string into its rstripped part and its trailing slashes. -/
theorem rstripSlashes_split (s : String) :
    ∃ k, s = rstripSlashes s ++ ofChars (List.replicate k '/') := by
  obtain ⟨l⟩ := s
  refine ⟨(l.reverse.takeWhile (fun c => c == '/')).length, ?_⟩
  show String.mk l = String.mk ((l.reverse.dropWhile (fun c => c == '/')).reverse)
      ++ String.mk (List.replicate (l.reverse.takeWhile (fun c => c == '/')).length '/')
  have hmk : ∀ a b : List Char, String.mk a ++ String.mk b = String.mk (a ++ b) := fun a b => rfl
  rw [hmk]
  have hsplit : l.reverse.takeWhile (fun c => c == '/') ++ l.reverse.dropWhile (fun c => c == '/')
      = l.reverse := List.takeWhile_append_dropWhile (fun c => c == '/') l.reverse
  have hl : l = (l.reverse.dropWhile (fun c => c == '/')).reverse
      ++ (l.reverse.takeWhile (fun c => c == '/')).reverse := by
    conv_lhs => rw [← List.reverse_reverse l, ← hsplit]
    rw [List.reverse_append]
  have hrep : (l.reverse.takeWhile (fun c => c == '/')).reverse
      = List.replicate (l.reverse.takeWhile (fun c => c == '/')).length '/' := by
    rw [takeSlash_replicate l.reverse, List.reverse_replicate, List.length_replicate]
  rw [← hrep]
  exact congrArg String.mk hl

/-- C9 (corrected): every trailing slash of the configured base URL is
stripped before the path is concatenated (not exactly one): the client base
URL never ends in a slash, and the configured base URL is the client base URL
followed by some run of slashes; the request URL is plain concatenation with
no further normalization. -/
theorem C9_url_join_amended :
    ∀ (host_config : HostConfig) (path : String),
      (HttpClient.ofConfig host_config).base_url ++ path
        = rstripSlashes host_config.base_url ++ path
      ∧ lastIsSlash ((HttpClient.ofConfig host_config).base_url) = false
      ∧ ∃ k, host_config.base_url
          = (HttpClient.ofConfig host_config).base_url ++ ofChars (List.replicate k '/') := by
  intro host_config path
  refine ⟨rfl, ?_, ?_⟩
  · show (match ((host_config.base_url.data.reverse.dropWhile (fun c => c == '/')).reverse).reverse with
          | [] => false
          | c :: _ => c == '/') = false
    rw [List.reverse_reverse]
    exact dropSlash_head_not_slash _
  · exact rstripSlashes_split host_config.base_url

/-- C9 counterexample: on a base URL with two trailing slashes the code
strips both while the stated rule strips one, and the resulting request URLs
differ. -/
theorem C9_counterexample :
    (HttpClient.ofConfig { base_url := "http://h//" }).base_url ++ "/x" = "http://h/x"
    ∧ specJoinUrl ("http://h//") ("/x") = "http://h//x"
    ∧ (HttpClient.ofConfig { base_url := "http://h//" }).base_url ++ "/x"
        ≠ specJoinUrl ("http://h//") ("/x") := by
  exact ⟨by decide, by decide, by decide⟩

/-! ## Step-level lemmas shared by the retry, URL and delay claims -/

/-- The events of an attempt whose request raised: the pre-delay sleep when
positive, then the issued request; no post-delay. -/
theorem execute_step_exn_events (client : HttpClient) (step : ScenarioStep)
    (vars : List (String × JValue)) (msg : String) :
    execute_step client step vars (HttpOutcome.exn msg)
      = (Except.error msg,
         (if 0 < step.delay_before then [Event.sleep step.delay_before] else [])
           ++ [Event.request step.method (client.base_url ++ _substitute_variables step.path vars)]) :=
  rfl

/-- The events of an attempt whose request returned: the pre-delay sleep when
positive, the issued request, then the post-delay sleep when positive. -/
theorem execute_step_ok_events (client : HttpClient) (step : ScenarioStep)
    (vars : List (String × JValue)) (sc : Int) (rh : List (String × String)) (rb : JValue)
    (rt : ℚ) :
    execute_step client step vars (HttpOutcome.ok sc rh rb rt)
      = (Except.ok (sc, rh, rb, rt),
         (if 0 < step.delay_before then [Event.sleep step.delay_before] else [])
           ++ [Event.request step.method (client.base_url ++ _substitute_variables step.path vars)]
           ++ (if 0 < step.delay_after then [Event.sleep step.delay_after] else [])) :=
  rfl

/-- Every request event of an attempt carries the step method and the URL
built from the substituted path. -/
theorem execute_step_request_events (client : HttpClient) (step : ScenarioStep)
    (vars : List (String × JValue)) (outcome : HttpOutcome) (m u : String) :
    Event.request m u ∈ (execute_step client step vars outcome).2 →
    m = step.method ∧ u = client.base_url ++ _substitute_variables step.path vars := by
  cases outcome with
  | ok sc rh rb rt =>
    rw [execute_step_ok_events]
    intro h
    rcases List.mem_append.mp h with h1 | h2
    · rcases List.mem_append.mp h1 with h3 | h4
      · by_cases hd : 0 < step.delay_before
        · simp [hd] at h3
        · simp [hd] at h3
      · simp at h4
        exact h4
    · by_cases hd : 0 < step.delay_after
      · simp [hd] at h2
      · simp [hd] at h2
  | exn msg =>
    rw [execute_step_exn_events]
    intro h
    rcases List.mem_append.mp h with h1 | h2
    · by_cases hd : 0 < step.delay_before
      · simp [hd] at h1
      · simp [hd] at h1
    · simp at h2
      exact h2

/-- The URL recorded on the StepResult of the attempt loop is always the base
URL concatenated with the raw step path. -/
theorem _execute_step_loop_url (rmatch : String → String → Bool) (client : HttpClient)
    (step : ScenarioStep) (vars : List (String × JValue)) (http : Nat → HttpOutcome) :
    ∀ (remaining attempt : Nat) (last_error : Option String),
      (_execute_step_loop rmatch client step vars http attempt remaining last_error).1.url
        = client.base_url ++ step.path := by
  intro remaining
  induction remaining with
  | zero => intro attempt last_error; rfl
  | succ rem ih =>
    intro attempt last_error
    unfold _execute_step_loop
    cases hr : (execute_step client step vars (http attempt)).1 with
    | ok v =>
      obtain ⟨sc, rh, rb, rt⟩ := v
      simp [hr, okStepResult]
    | error e =>
      by_cases h : 0 < rem <;> simp [hr, h, ih]

/-- Every request event in the whole retry trace carries the step method and
the URL built from the substituted path. -/
theorem _execute_step_loop_request_events (rmatch : String → String → Bool)
    (client : HttpClient) (step : ScenarioStep) (vars : List (String × JValue))
    (http : Nat → HttpOutcome) :
    ∀ (remaining attempt : Nat) (last_error : Option String) (m u : String),
      Event.request m u ∈ (_execute_step_loop rmatch client step vars http attempt remaining last_error).2 →
      m = step.method ∧ u = client.base_url ++ _substitute_variables step.path vars := by
  intro remaining
  induction remaining with
  | zero =>
    intro attempt last_error m u h
    cases h
  | succ rem ih =>
    intro attempt last_error m u
    unfold _execute_step_loop
    cases hr : (execute_step client step vars (http attempt)).1 with
    | ok v =>
      obtain ⟨sc, rh, rb, rt⟩ := v
      intro h
      simp only [hr] at h
      exact execute_step_request_events client step vars (http attempt) m u h
    | error e =>
      by_cases hrem : 0 < rem
      · intro h
        simp only [hr, hrem, if_pos] at h
        rcases List.mem_append.mp h with h1 | h2
        · rcases List.mem_append.mp h1 with h3 | h4
          · exact execute_step_request_events client step vars (http attempt) m u h3
          · simp at h4
        · exact ih (attempt + 1) (some e) m u h2
      · intro h
        simp only [hr, hrem, if_neg, if_false] at h
        rcases List.mem_append.mp h with h1 | h2
        · exact execute_step_request_events client step vars (http attempt) m u h1
        · exact ih (attempt + 1) (some e) m u h2

/-- C7 (corrected): the URL recorded on every StepResult is the base URL
concatenated with the raw step path, before variable substitution, while the
requests actually issued use the substituted path; the two differ whenever
substitution changes the path. -/
theorem C7_recorded_url_amended :
    ∀ (rmatch : String → String → Bool) (client : HttpClient) (step : ScenarioStep)
      (vars : List (String × JValue)) (http : Nat → HttpOutcome),
      (_execute_step rmatch client step vars http).1.url = client.base_url ++ step.path
      ∧ (∀ (m u : String), Event.request m u ∈ (_execute_step rmatch client step vars http).2 →
          u = client.base_url ++ _substitute_variables step.path vars) := by
  intro rmatch client step vars http
  constructor
  · exact _execute_step_loop_url rmatch client step vars http (step.retry + 1) 0 none
  · intro m u h
    exact (_execute_step_loop_request_events rmatch client step vars http (step.retry + 1) 0 none m u h).2

/-- C7 counterexample: with the path holding a placeholder for the bound
variable id, the recorded URL keeps the placeholder while the issued request
resolved it, so the recorded URL is not the URL actually sent. -/
theorem C7_counterexample :
    c7Out.1.url = "http://h/u/\x7b\x7bid\x7d\x7d"
    ∧ c7Out.2 = [Event.request ("GET") ("http://h/u/7")]
    ∧ c7Out.1.url ≠ "http://h/u/7" := by
  exact ⟨rfl, by decide, by decide⟩

/-- C7 witness: the recorded URL of the placeholder step is the raw
concatenation. -/
theorem C7_witness :
    c7Out.1.url = client0.base_url ++ c7Step.path
    ∧ (∀ (m u : String), Event.request m u ∈ c7Out.2 →
        u = client0.base_url ++ _substitute_variables c7Step.path [(("id"), JValue.int 7)]) :=
  C7_recorded_url_amended rmatch0 client0 c7Step [(("id"), JValue.int 7)] (fun _ => .ok 200 [] .null 1)

/-! ## C8: pre- and post-delay behaviour -/

/-- Counting an event distributes over trace concatenation. -/
theorem countEv_append (e : Event) (a b : List Event) :
    countEv e (a ++ b) = countEv e a + countEv e b :=
  List.countP_append _ a b

/-- With every attempt raising, the trace holds one pre-delay sleep per
attempt and no post-delay sleep at all, provided the three sleep durations in
play are pairwise distinct. -/
theorem _execute_step_loop_exn_sleep_counts (rmatch : String → String → Bool)
    (client : HttpClient) (step : ScenarioStep) (vars : List (String × JValue))
    (http : Nat → HttpOutcome) (hx : ∀ i, ∃ m, http i = HttpOutcome.exn m)
    (hdb : 0 < step.delay_before) (hda : 0 < step.delay_after)
    (hd1 : step.delay_after ≠ step.delay_before) (hd2 : step.delay_after ≠ 1)
    (hd3 : step.delay_before ≠ 1) :
    ∀ (remaining attempt : Nat) (last_error : Option String),
      countEv (Event.sleep step.delay_before)
          (_execute_step_loop rmatch client step vars http attempt remaining last_error).2
        = remaining
      ∧ countEv (Event.sleep step.delay_after)
          (_execute_step_loop rmatch client step vars http attempt remaining last_error).2
        = 0 := by
  have h1db : (1 : ℚ) ≠ step.delay_before := fun h => hd3 h.symm
  have h1da : (1 : ℚ) ≠ step.delay_after := fun h => hd2 h.symm
  have hdbda : step.delay_before ≠ step.delay_after := fun h => hd1 h.symm
  intro remaining
  induction remaining with
  | zero => intro attempt last_error; exact ⟨rfl, rfl⟩
  | succ rem ih =>
    intro attempt last_error
    obtain ⟨msg, hm⟩ := hx attempt
    have ihc := ih (attempt + 1) (some msg)
    unfold _execute_step_loop
    rw [hm, execute_step_exn_events]
    simp only [if_pos hdb]
    by_cases hrem : 0 < rem
    · simp only [if_pos hrem]
      constructor
      · rw [countEv_append, countEv_append, countEv_append, ihc.1]
        simp only [countEv, List.countP_cons, List.countP_nil]
        simp [h1db] <;> omega
      · rw [countEv_append, countEv_append, countEv_append, ihc.2]
        simp only [countEv, List.countP_cons, List.countP_nil]
        simp [h1da, hdbda]
    · simp only [if_neg hrem]
      constructor
      · rw [countEv_append, countEv_append, ihc.1]
        simp only [countEv, List.countP_cons, List.countP_nil]
        simp <;> omega
      · rw [countEv_append, countEv_append, ihc.2]
        simp only [countEv, List.countP_cons, List.countP_nil]
        simp [h1da, hdbda]

/-- C8 (corrected): the pre-delay is slept on every attempt, erroring ones
included, but the post-delay is slept only on an attempt whose request
returned; an attempt that raised skips its post-delay because the raise
propagates before the post-delay line.  Concretely: an erroring attempt
contributes its pre-delay sleep and no post-delay sleep, a returning attempt
contributes both, and with every attempt raising the trace holds one
pre-delay sleep per attempt and no post-delay sleep. -/
theorem C8_delays_amended :
    ∀ (client : HttpClient) (step : ScenarioStep) (vars : List (String × JValue)),
      (∀ msg, (execute_step client step vars (HttpOutcome.exn msg)).2
        = (if 0 < step.delay_before then [Event.sleep step.delay_before] else [])
          ++ [Event.request step.method (client.base_url ++ _substitute_variables step.path vars)])
      ∧ (∀ (sc : Int) (rh : List (String × String)) (rb : JValue) (rt : ℚ),
          (execute_step client step vars (HttpOutcome.ok sc rh rb rt)).2
        = (if 0 < step.delay_before then [Event.sleep step.delay_before] else [])
          ++ [Event.request step.method (client.base_url ++ _substitute_variables step.path vars)]
          ++ (if 0 < step.delay_after then [Event.sleep step.delay_after] else []))
      ∧ (∀ (rmatch : String → String → Bool) (http : Nat → HttpOutcome),
          (∀ i, ∃ m, http i = HttpOutcome.exn m) →
          0 < step.delay_before → 0 < step.delay_after →
          step.delay_after ≠ step.delay_before → step.delay_after ≠ 1 →
          step.delay_before ≠ 1 →
          countEv (Event.sleep step.delay_before) (_execute_step rmatch client step vars http).2
            = step.retry + 1
          ∧ countEv (Event.sleep step.delay_after) (_execute_step rmatch client step vars http).2
            = 0) := by
  intro client step vars
  refine ⟨?_, ?_, ?_⟩
  · intro msg
    rw [execute_step_exn_events]
  · intro sc rh rb rt
    rw [execute_step_ok_events]
  · intro rmatch http hx hdb hda hd1 hd2 hd3
    exact _execute_step_loop_exn_sleep_counts rmatch client step vars http hx hdb hda hd1 hd2 hd3
      (step.retry + 1) 0 none

/-- C8 counterexample: the single attempt of a step with a two-second
pre-delay and a three-second post-delay raises; the trace holds the pre-delay
sleep and the request but no three-second sleep, and the step errors. -/
theorem C8_counterexample :
    c8Out.2 = [Event.sleep 2, Event.request ("GET") ("http://h/a")]
    ∧ Event.sleep 3 ∉ c8Out.2
    ∧ c8Out.1.status = TestStatus.error := by
  exact ⟨by decide, by decide, by decide⟩

/-- C8 witness: the delayed erroring step sleeps its pre-delay once and its
post-delay never. -/
theorem C8_witness :
    countEv (Event.sleep 2) (_execute_step rmatch0 client0 c8Step [] (fun _ => HttpOutcome.exn ("t"))).2 = 1
    ∧ countEv (Event.sleep 3) (_execute_step rmatch0 client0 c8Step [] (fun _ => HttpOutcome.exn ("t"))).2 = 0 :=
  (C8_delays_amended client0 c8Step []).2.2 rmatch0 (fun _ => HttpOutcome.exn ("t"))
    (fun _ => ⟨("t"), rfl⟩) (by decide) (by decide) (by decide) (by decide) (by decide)

/-! ## C3: retry semantics -/

/-- Every single attempt issues exactly one request. -/
theorem execute_step_one_request (client : HttpClient) (step : ScenarioStep)
    (vars : List (String × JValue)) (outcome : HttpOutcome) :
    countRequests (execute_step client step vars outcome).2 = 1 := by
  cases outcome with
  | ok sc rh rb rt =>
    rw [execute_step_ok_events]
    by_cases h1 : 0 < step.delay_before <;> by_cases h2 : 0 < step.delay_after <;>
      simp [h1, h2, countRequests]
  | exn msg =>
    rw [execute_step_exn_events]
    by_cases h1 : 0 < step.delay_before <;> simp [h1, countRequests]

/-- The attempt-completed StepResult is a failure exactly when some assertion
failed and a success otherwise; it is never an error and never skipped. -/
theorem okStepResult_status (rmatch : String → String → Bool) (client : HttpClient)
    (step : ScenarioStep) (sc : Int) (rh : List (String × String)) (rb : JValue) (rt : ℚ) :
    (okStepResult rmatch client step sc rh rb rt).status = TestStatus.failure
    ∨ (okStepResult rmatch client step sc rh rb rt).status = TestStatus.success := by
  simp only [okStepResult]
  split <;> simp

/-- Every StepResult of the attempt loop has one of the three live statuses,
and an error StepResult carries no extracted variables. -/
theorem _execute_step_status (rmatch : String → String → Bool) (client : HttpClient)
    (step : ScenarioStep) (vars : List (String × JValue)) (http : Nat → HttpOutcome) :
    (_execute_step rmatch client step vars http).1.status ≠ TestStatus.skipped
    ∧ ((_execute_step rmatch client step vars http).1.status = TestStatus.error →
        (_execute_step rmatch client step vars http).1.extracted_variables = []) := by
  show (_execute_step_loop rmatch client step vars http 0 (step.retry + 1) none).1.status
        ≠ TestStatus.skipped
    ∧ ((_execute_step_loop rmatch client step vars http 0 (step.retry + 1) none).1.status
          = TestStatus.error →
        (_execute_step_loop rmatch client step vars http 0 (step.retry + 1) none).1.extracted_variables
          = [])
  suffices h : ∀ (remaining attempt : Nat) (last_error : Option String),
      (_execute_step_loop rmatch client step vars http attempt remaining last_error).1.status
        ≠ TestStatus.skipped
      ∧ ((_execute_step_loop rmatch client step vars http attempt remaining last_error).1.status
            = TestStatus.error →
          (_execute_step_loop rmatch client step vars http attempt remaining last_error).1.extracted_variables
            = []) from h (step.retry + 1) 0 none
  intro remaining
  induction remaining with
  | zero =>
    intro attempt last_error
    exact ⟨fun h => (nomatch h), fun _ => rfl⟩
  | succ rem ih =>
    intro attempt last_error
    unfold _execute_step_loop
    cases hr : (execute_step client step vars (http attempt)).1 with
    | ok v =>
      obtain ⟨sc, rh, rb, rt⟩ := v
      simp only [hr]
      rcases okStepResult_status rmatch client step sc rh rb rt with h | h
      · exact ⟨by rw [h]; exact fun hc => (nomatch hc), by rw [h]; exact fun hc => (nomatch hc)⟩
      · exact ⟨by rw [h]; exact fun hc => (nomatch hc), by rw [h]; exact fun hc => (nomatch hc)⟩
    | error e =>
      simp only [hr]
      by_cases hrem : 0 < rem
      · simpa [hrem] using ih (attempt + 1) (some e)
      · simpa [hrem] using ih (attempt + 1) (some e)

/-- Characterization of the scenario step loop: the final status is the fold
of statusCombine over the recorded step statuses, the final variable map is
the fold of the merges of every recorded extraction map (regardless of step
status), and every recorded StepResult has a live status with an error step
extracting nothing. -/
theorem runSteps_spec (rmatch : String → String → Bool) (client : HttpClient)
    (http : Nat → Nat → HttpOutcome) :
    ∀ (steps : List ScenarioStep) (idx : Nat) (vars0 : List (String × JValue)) (st0 : TestStatus),
      (runSteps rmatch client http steps idx vars0 st0).2.2
        = (runSteps rmatch client http steps idx vars0 st0).1.foldl
            (fun st s => statusCombine st s.status) st0
      ∧ (runSteps rmatch client http steps idx vars0 st0).2.1
        = (runSteps rmatch client http steps idx vars0 st0).1.foldl
            (fun acc s => updateAll acc s.extracted_variables) vars0
      ∧ (∀ s ∈ (runSteps rmatch client http steps idx vars0 st0).1,
          s.status ≠ TestStatus.skipped
          ∧ (s.status = TestStatus.error → s.extracted_variables = [])) := by
  intro steps
  induction steps with
  | nil =>
    intro idx vars0 st0
    exact ⟨rfl, rfl, by intro s hs; cases hs⟩
  | cons step rest ih =>
    intro idx vars0 st0
    have hstep := _execute_step_status rmatch client step vars0 (http idx)
    have hv2 : (if (_execute_step rmatch client step vars0 (http idx)).1.extracted_variables.isEmpty
          then vars0
          else updateAll vars0 (_execute_step rmatch client step vars0 (http idx)).1.extracted_variables)
        = updateAll vars0 (_execute_step rmatch client step vars0 (http idx)).1.extracted_variables := by
      by_cases hemp : (_execute_step rmatch client step vars0 (http idx)).1.extracted_variables.isEmpty
      · rw [if_pos hemp, List.isEmpty_iff.mp hemp]
        rfl
      · rw [if_neg hemp]
    simp only [runSteps, hv2]
    cases hst : (_execute_step rmatch client step vars0 (http idx)).1.status with
    | success =>
      obtain ⟨ih1, ih2, ih3⟩ := ih (idx + 1)
        (updateAll vars0 (_execute_step rmatch client step vars0 (http idx)).1.extracted_variables) st0
      refine ⟨?_, ?_, ?_⟩
      · simpa [List.foldl_cons, statusCombine, hst] using ih1
      · simpa [List.foldl_cons, hst] using ih2
      · intro s hs
        rcases List.mem_cons.mp hs with rfl | hs2
        · exact ⟨by rw [hst]; exact fun hc => (nomatch hc), by rw [hst]; exact fun hc => (nomatch hc)⟩
        · exact ih3 s hs2
    | failure =>
      by_cases hskip : step.skip_on_failure
      · obtain ⟨ih1, ih2, ih3⟩ := ih (idx + 1)
          (updateAll vars0 (_execute_step rmatch client step vars0 (http idx)).1.extracted_variables)
          TestStatus.failure
        refine ⟨?_, ?_, ?_⟩
        · simpa [hskip, List.foldl_cons, statusCombine, hst] using ih1
        · simpa [hskip, List.foldl_cons, hst] using ih2
        · intro s hs
          simp only [hskip, if_true] at hs
          rcases List.mem_cons.mp hs with rfl | hs2
          · exact ⟨by rw [hst]; exact fun hc => (nomatch hc), by rw [hst]; exact fun hc => (nomatch hc)⟩
          · exact ih3 s hs2
      · refine ⟨?_, ?_, ?_⟩
        · simp [hskip, List.foldl_cons, statusCombine, hst]
        · simp [hskip, List.foldl_cons, hst]
        · intro s hs
          simp only [hskip, if_false] at hs
          rcases List.mem_cons.mp hs with rfl | hs2
          · exact ⟨by rw [hst]; exact fun hc => (nomatch hc), by rw [hst]; exact fun hc => (nomatch hc)⟩
          · cases hs2
    | error =>
      by_cases hskip : step.skip_on_failure
      · obtain ⟨ih1, ih2, ih3⟩ := ih (idx + 1)
          (updateAll vars0 (_execute_step rmatch client step vars0 (http idx)).1.extracted_variables)
          TestStatus.error
        refine ⟨?_, ?_, ?_⟩
        · simpa [hskip, List.foldl_cons, statusCombine, hst] using ih1
        · simpa [hskip, List.foldl_cons, hst] using ih2
        · intro s hs
          simp only [hskip, if_true] at hs
          rcases List.mem_cons.mp hs with rfl | hs2
          · exact ⟨by rw [hst]; exact fun hc => (nomatch hc), fun _ => hstep.2 hst⟩
          · exact ih3 s hs2
      · refine ⟨?_, ?_, ?_⟩
        · simp [hskip, List.foldl_cons, statusCombine, hst]
        · simp [hskip, List.foldl_cons, hst]
        · intro s hs
          simp only [hskip, if_false] at hs
          rcases List.mem_cons.mp hs with rfl | hs2
          · exact ⟨by rw [hst]; exact fun hc => (nomatch hc), fun _ => hstep.2 hst⟩
          · cases hs2
    | skipped => exact absurd hst hstep.1

/-! ## C1: merging of extracted variables -/

/-- C1 (corrected): extracted variables are merged into the execution context
for every recorded step regardless of its status, failure steps included: the
final variable map is the initial one updated, in order, with every recorded
extraction map.  Only an error step contributes nothing, because it records
an empty extraction map; extraction from a failure step is merged, contrary
to the claim. -/
theorem C1_extraction_merge_amended :
    ∀ (rmatch : String → String → Bool) (client : HttpClient) (scenario : Scenario)
      (http : Nat → Nat → HttpOutcome),
      (execute_scenario rmatch client scenario http).vars
        = (execute_scenario rmatch client scenario http).steps.foldl
            (fun acc s => updateAll acc s.extracted_variables) (scenario.vars.getD [])
      ∧ (∀ s ∈ (execute_scenario rmatch client scenario http).steps,
          s.status = TestStatus.error → s.extracted_variables = []) := by
  intro rmatch client scenario http
  obtain ⟨h1, h2, h3⟩ := runSteps_spec rmatch client http scenario.steps 0
    (scenario.vars.getD []) TestStatus.success
  exact ⟨h2, fun s hs he => (h3 s hs).2 he⟩

/-- C1 counterexample: the only step fails its status assertion, yet its
extracted token is present in the final variable map of the scenario. -/
theorem C1_counterexample :
    c1Result.steps.map (fun s => s.status) = [TestStatus.failure]
    ∧ jlookup c1Result.vars ("token") = some (JValue.str ("abc")) := by
  exact ⟨by decide, rfl⟩

/-- C1 witness: the failing scenario satisfies the merge-fold equation. -/
theorem C1_witness :
    c1Result.vars
      = c1Result.steps.foldl (fun acc s => updateAll acc s.extracted_variables) [] :=
  (C1_extraction_merge_amended rmatch0 client0 { name := "c1", steps := [c1Step] } c1Http).1

/-! ## C2: aggregate scenario status -/

/-- Folding statusCombine yields success exactly when it starts from success
and meets neither a failure nor an error. -/
theorem foldl_statusCombine_success (l : List StepResult) :
    ∀ st : TestStatus,
      (l.foldl (fun st s => statusCombine st s.status) st = TestStatus.success ↔
        st = TestStatus.success
        ∧ ∀ s ∈ l, s.status ≠ TestStatus.failure ∧ s.status ≠ TestStatus.error) := by
  induction l with
  | nil => intro st; simp
  | cons s t ih =>
    intro st
    rw [List.foldl_cons, ih]
    cases hst : s.status <;>
      simp [statusCombine, hst, List.forall_mem_cons, and_assoc] <;>
      intro h <;> simp [h]

/-- C2 (corrected): the aggregate status is the fold over the recorded steps
of the overwrite rule, i.e. success when every recorded step succeeded and
otherwise the status of the last recorded non-success step; when both an
error and a later failure are recorded (possible only under skip_on_failure)
the aggregate is failure, not error.  No recorded step is ever skipped. -/
theorem C2_aggregate_status_amended :
    ∀ (rmatch : String → String → Bool) (client : HttpClient) (scenario : Scenario)
      (http : Nat → Nat → HttpOutcome),
      (execute_scenario rmatch client scenario http).status
        = (execute_scenario rmatch client scenario http).steps.foldl
            (fun st s => statusCombine st s.status) TestStatus.success
      ∧ ((execute_scenario rmatch client scenario http).status = TestStatus.success ↔
          ∀ s ∈ (execute_scenario rmatch client scenario http).steps,
            s.status = TestStatus.success)
      ∧ (∀ s ∈ (execute_scenario rmatch client scenario http).steps,
          s.status ≠ TestStatus.skipped) := by
  intro rmatch client scenario http
  obtain ⟨h1, h2, h3⟩ := runSteps_spec rmatch client http scenario.steps 0
    (scenario.vars.getD []) TestStatus.success
  refine ⟨h1, ?_, fun s hs => (h3 s hs).1⟩
  rw [show (execute_scenario rmatch client scenario http).status
      = (runSteps rmatch client http scenario.steps 0 (scenario.vars.getD [])
          TestStatus.success).2.2 from rfl, h1, foldl_statusCombine_success]
  constructor
  · intro h s hs
    have h4 := (h.2 s hs)
    have h5 := (h3 s hs).1
    cases hcs : s.status
    · rfl
    · exact absurd hcs h4.1
    · exact absurd hcs h4.2
    · exact absurd hcs h5
  · intro h
    refine ⟨rfl, fun s hs => ?_⟩
    rw [h s hs]
    exact ⟨fun hc => (nomatch hc), fun hc => (nomatch hc)⟩

/-- C2 counterexample: a scenario recording an error step (skip_on_failure)
followed by a failure step ends with aggregate status failure, while the
stated rule demands error whenever any step errored. -/
theorem C2_counterexample :
    c2Result.steps.map (fun s => s.status) = [TestStatus.error, TestStatus.failure]
    ∧ c2Result.status = TestStatus.failure
    ∧ ¬ specAggregateRule c2Result := by
  refine ⟨by decide, by decide, ?_⟩
  intro h
  have herr : c2Result.status = TestStatus.error := h.2.2 ⟨by decide, by decide⟩
  exact absurd herr (by decide)

/-- C2 witness: a one-step scenario whose step succeeds aggregates to
success. -/
theorem C2_witness :
    (execute_scenario rmatch0 client0 { name := "w", steps := [c2wStep] } c2wHttp).status
      = TestStatus.success :=
  (C2_aggregate_status_amended rmatch0 client0 { name := "w", steps := [c2wStep] } c2wHttp).2.1.mpr
    (by decide)

/-! ## C6: request counts -/

/-- A list of StepResults without skipped entries splits into the success,
failure and error counts. -/
theorem count_three_statuses (l : List StepResult)
    (h : ∀ s ∈ l, s.status ≠ TestStatus.skipped) :
    l.length = l.countP (fun s => decide (s.status = TestStatus.success))
      + l.countP (fun s => decide (s.status = TestStatus.failure))
      + l.countP (fun s => decide (s.status = TestStatus.error)) := by
  induction l with
  | nil => rfl
  | cons s t ih =>
    have ht := ih (fun x hx => h x (List.mem_cons_of_mem s hx))
    have hs := h s (List.mem_cons_self s t)
    simp only [List.countP_cons, List.length_cons]
    cases hst : s.status <;> simp [hst] at hs ⊢ <;> omega

/-- C6: in every ScenarioResult the total request count is the number of
recorded StepResults, and equals the sum of the success, failure and error
counts; no recorded step carries the skipped status, so skipped contributes
to none of the three. -/
theorem C6_scenario_counts :
    ∀ (rmatch : String → String → Bool) (client : HttpClient) (scenario : Scenario)
      (http : Nat → Nat → HttpOutcome),
      (execute_scenario rmatch client scenario http).total_requests
        = (execute_scenario rmatch client scenario http).steps.length
      ∧ (execute_scenario rmatch client scenario http).total_requests
        = (execute_scenario rmatch client scenario http).successful_requests
          + (execute_scenario rmatch client scenario http).failed_requests
          + (execute_scenario rmatch client scenario http).error_requests := by
  intro rmatch client scenario http
  obtain ⟨h1, h2, h3⟩ := runSteps_spec rmatch client http scenario.steps 0
    (scenario.vars.getD []) TestStatus.success
  exact ⟨rfl, count_three_statuses _ (fun s hs => (h3 s hs).1)⟩

/-! ## C5: percentile snapshot -/

/-- The metric sort is sorted. -/
theorem sortTimes_sorted (l : List ℚ) : List.Sorted (fun a b => a ≤ b) (sortTimes l) :=
  List.sorted_insertionSort _ l

/-- The metric sort preserves the length. -/
theorem sortTimes_length (l : List ℚ) : (sortTimes l).length = l.length :=
  (List.perm_insertionSort _ l).length_eq

/-- Indexing a sorted list is monotone in the index. -/
theorem sorted_getD_le (l : List ℚ) (h : List.Sorted (fun a b => a ≤ b) l) (i j : Nat)
    (hij : i ≤ j) (hj : j < l.length) : l.getD i 0 ≤ l.getD j 0 := by
  have hi : i < l.length := lt_of_le_of_lt hij hj
  rw [List.getD_eq_getElem l 0 hi, List.getD_eq_getElem l 0 hj]
  rcases eq_or_lt_of_le hij with rfl | hlt
  · exact le_refl _
  · exact List.pairwise_iff_get.mp h ⟨i, hi⟩ ⟨j, hj⟩ hlt

/-- The fold computing the Python max never goes below its accumulator. -/
theorem acc_le_foldl_max (ys : List ℚ) : ∀ a : ℚ, a ≤ ys.foldl max a := by
  induction ys with
  | nil => intro a; exact le_refl a
  | cons z zs ih => intro a; exact le_trans (le_max_left a z) (ih (max a z))

/-- The fold computing the Python max dominates every list element. -/
theorem mem_le_foldl_max (x : ℚ) (ys : List ℚ) : ∀ a : ℚ, x ∈ ys → x ≤ ys.foldl max a := by
  induction ys with
  | nil => intro a h; cases h
  | cons z zs ih =>
    intro a h
    rcases List.mem_cons.mp h with rfl | h2
    · exact le_trans (le_max_right a x) (acc_le_foldl_max zs (max a x))
    · exact ih (max a z) h2

/-- Every element of a list is at most its Python max. -/
theorem mem_le_listMax (l : List ℚ) (x : ℚ) (hx : x ∈ l) : x ≤ listMax l := by
  match l with
  | [] => cases hx
  | y :: ys =>
    rcases List.mem_cons.mp hx with rfl | h
    · exact acc_le_foldl_max ys x
    · exact mem_le_foldl_max x ys y h

/-- Every in-range indexed element is at most the Python max. -/
theorem getD_le_listMax (l : List ℚ) (i : Nat) (hi : i < l.length) :
    l.getD i 0 ≤ listMax l := by
  have hmem : l.getD i 0 ∈ l := by
    rw [List.getD_eq_getElem l 0 hi]
    exact List.getElem_mem hi
  exact mem_le_listMax l _ hmem

/-- On a sorted list the median is at most any element indexed at or beyond
the middle. -/
theorem median_le_sorted_getD (l : List ℚ) (h : List.Sorted (fun a b => a ≤ b) l)
    (hn : 1 ≤ l.length) (idx : Nat) (hidx : l.length / 2 ≤ idx) (hlt : idx < l.length) :
    median l ≤ l.getD idx 0 := by
  show (if l.length % 2 = 1 then l.getD (l.length / 2) 0
        else (l.getD (l.length / 2 - 1) 0 + l.getD (l.length / 2) 0) / 2) ≤ l.getD idx 0
  by_cases hodd : l.length % 2 = 1
  · rw [if_pos hodd]
    exact sorted_getD_le l h _ idx hidx hlt
  · rw [if_neg hodd]
    have h1 : l.getD (l.length / 2 - 1) 0 ≤ l.getD (l.length / 2) 0 :=
      sorted_getD_le l h _ _ (by omega) (by omega)
    have h2 : l.getD (l.length / 2) 0 ≤ l.getD idx 0 := sorted_getD_le l h _ idx hidx hlt
    linarith

/-- C5: on an empty response-time array every time statistic of the snapshot
is zero; on a nonempty array the sorted times give p50 as the median, p95 and
p99 as the entries at the floors of 0.95 and 0.99 of the length (clamped to
the maximum when out of range), and the snapshot satisfies
p50 <= p95 <= p99 <= max. -/
theorem C5_percentile_snapshot :
    ∀ (elapsed : ℚ) (total successful failed errors active : Nat) (times : List ℚ),
      (times = [] →
        (_calculate_current_metrics elapsed total successful failed errors active times).avg_response_time_ms = 0
        ∧ (_calculate_current_metrics elapsed total successful failed errors active times).min_response_time_ms = 0
        ∧ (_calculate_current_metrics elapsed total successful failed errors active times).max_response_time_ms = 0
        ∧ (_calculate_current_metrics elapsed total successful failed errors active times).p50_response_time_ms = 0
        ∧ (_calculate_current_metrics elapsed total successful failed errors active times).p95_response_time_ms = 0
        ∧ (_calculate_current_metrics elapsed total successful failed errors active times).p99_response_time_ms = 0)
      ∧ (times ≠ [] →
        (_calculate_current_metrics elapsed total successful failed errors active times).p50_response_time_ms
          = median (sortTimes times)
        ∧ (_calculate_current_metrics elapsed total successful failed errors active times).p95_response_time_ms
          = (if (sortTimes times).length * 95 / 100 < (sortTimes times).length
             then (sortTimes times).getD ((sortTimes times).length * 95 / 100) 0
             else listMax (sortTimes times))
        ∧ (_calculate_current_metrics elapsed total successful failed errors active times).p99_response_time_ms
          = (if (sortTimes times).length * 99 / 100 < (sortTimes times).length
             then (sortTimes times).getD ((sortTimes times).length * 99 / 100) 0
             else listMax (sortTimes times))
        ∧ (_calculate_current_metrics elapsed total successful failed errors active times).max_response_time_ms
          = listMax (sortTimes times)
        ∧ (_calculate_current_metrics elapsed total successful failed errors active times).avg_response_time_ms
          = listSum (sortTimes times) / ((sortTimes times).length : ℚ)
        ∧ (_calculate_current_metrics elapsed total successful failed errors active times).min_response_time_ms
          = listMin (sortTimes times))
      ∧ ((_calculate_current_metrics elapsed total successful failed errors active times).p50_response_time_ms
          ≤ (_calculate_current_metrics elapsed total successful failed errors active times).p95_response_time_ms
        ∧ (_calculate_current_metrics elapsed total successful failed errors active times).p95_response_time_ms
          ≤ (_calculate_current_metrics elapsed total successful failed errors active times).p99_response_time_ms
        ∧ (_calculate_current_metrics elapsed total successful failed errors active times).p99_response_time_ms
          ≤ (_calculate_current_metrics elapsed total successful failed errors active times).max_response_time_ms) := by
  intro elapsed total successful failed errors active times
  cases times with
  | nil =>
    exact ⟨fun _ => ⟨rfl, rfl, rfl, rfl, rfl, rfl⟩, fun h => absurd rfl h,
      le_refl 0, le_refl 0, le_refl 0⟩
  | cons a t =>
    have hs := sortTimes_sorted (a :: t)
    have hlen : (sortTimes (a :: t)).length = (a :: t).length := sortTimes_length (a :: t)
    have hn : 1 ≤ (sortTimes (a :: t)).length := by
      rw [hlen, List.length_cons]
      omega
    have hi95 : (sortTimes (a :: t)).length * 95 / 100 < (sortTimes (a :: t)).length := by omega
    have hi99 : (sortTimes (a :: t)).length * 99 / 100 < (sortTimes (a :: t)).length := by omega
    refine ⟨fun h => (nomatch h), fun _ => ⟨rfl, rfl, rfl, rfl, rfl, rfl⟩, ?_, ?_, ?_⟩
    · show median (sortTimes (a :: t))
          ≤ (if (sortTimes (a :: t)).length * 95 / 100 < (sortTimes (a :: t)).length
             then (sortTimes (a :: t)).getD ((sortTimes (a :: t)).length * 95 / 100) 0
             else listMax (sortTimes (a :: t)))
      rw [if_pos hi95]
      exact median_le_sorted_getD (sortTimes (a :: t)) hs hn _ (by omega) hi95
    · show (if (sortTimes (a :: t)).length * 95 / 100 < (sortTimes (a :: t)).length
             then (sortTimes (a :: t)).getD ((sortTimes (a :: t)).length * 95 / 100) 0
             else listMax (sortTimes (a :: t)))
          ≤ (if (sortTimes (a :: t)).length * 99 / 100 < (sortTimes (a :: t)).length
             then (sortTimes (a :: t)).getD ((sortTimes (a :: t)).length * 99 / 100) 0
             else listMax (sortTimes (a :: t)))
      rw [if_pos hi95, if_pos hi99]
      exact sorted_getD_le (sortTimes (a :: t)) hs _ _ (by omega) hi99
    · show (if (sortTimes (a :: t)).length * 99 / 100 < (sortTimes (a :: t)).length
             then (sortTimes (a :: t)).getD ((sortTimes (a :: t)).length * 99 / 100) 0
             else listMax (sortTimes (a :: t)))
          ≤ listMax (sortTimes (a :: t))
      rw [if_pos hi99]
      exact getD_le_listMax (sortTimes (a :: t)) _ hi99

/-- C5 witness: the snapshot over three concrete response times satisfies the
nonempty characterization. -/
theorem C5_witness :
    ([3, 1, 2] : List ℚ) ≠ []
    ∧ (_calculate_current_metrics 1 3 3 0 0 0 [3, 1, 2]).p50_response_time_ms
        = median (sortTimes [3, 1, 2]) :=
  ⟨by decide, ((C5_percentile_snapshot 1 3 3 0 0 0 [3, 1, 2]).2.1 (by decide)).1⟩
